import Mathlib

/-!
Verification of the elliotberry/thumbnailer frontend (Tauri + React, JavaScript).

The development shallowly embeds the JavaScript source:
* `src/src/utils/gallery.js` — `clampThumbnailSize`, `formatImageCount`,
  `getDroppedPaths` (pure helpers over JavaScript values);
* `src/src/hooks/useThumbnailSize.js` — initial-size computation and setter;
* `src/src/hooks/useGallery.js` — the `loadGallery` state transitions,
  including the `loadRunIdRef` staleness guard;
* `src/src/App.jsx` — the `hydrateThumbnails` bounded worker pool, embedded
  as a small-step transition system whose suspension points are exactly the
  JavaScript `await` points (JavaScript is single threaded between awaits).

JavaScript values reaching these helpers are modelled by `JSVal`; JavaScript
numbers (which may be `NaN` or infinite) by `JSNum` over `ℚ` (the exact
decimal rendering of numbers is abstracted; no property below depends on it).
-/

set_option autoImplicit false

namespace Thumbnailer

/-- A JavaScript value, as far as the frontend helpers inspect one:
`null`, `undefined`, booleans, numbers, strings, arrays and plain objects
(an object is a finite list of named fields). -/
inductive JSVal where
  | null
  | undefVal
  | bool (b : Bool)
  | num (q : ℚ)
  | str (s : String)
  | arr (elems : List JSVal)
  | obj (fields : List (String × JSVal))

mutual

/-- JavaScript `String(v)` conversion.  Arrays render as their elements
joined by commas with `null`/`undefined` elements rendered empty; plain
objects render as `[object Object]`.  Number rendering is abstracted as the
canonical rendering of the rational. -/
def jsToString : JSVal → String
  | .null => "null"
  | .undefVal => "undefined"
  | .bool b => cond b "true" "false"
  | .num q => toString q
  | .str s => s
  | .arr xs => String.intercalate "," (jsArrElemStrings xs)
  | .obj _ => "[object Object]"

/-- Element-wise rendering used by JavaScript array-to-string conversion:
`null` and `undefined` elements become the empty string. -/
def jsArrElemStrings : List JSVal → List String
  | [] => []
  | .null :: vs => "" :: jsArrElemStrings vs
  | .undefVal :: vs => "" :: jsArrElemStrings vs
  | v :: vs => jsToString v :: jsArrElemStrings vs

end

/-- JavaScript `Array.isArray`. -/
def JSVal.isArray : JSVal → Bool
  | .arr _ => true
  | _ => false

/-- JavaScript truthiness (`Boolean(v)`): `null`, `undefined`, `false`,
`0`, and the empty string are falsy. -/
def JSVal.truthy : JSVal → Bool
  | .null => false
  | .undefVal => false
  | .bool b => b
  | .num q => !(q == 0)
  | .str s => !(s == "")
  | .arr _ => true
  | .obj _ => true

/-- JavaScript `typeof v`.  (`typeof null` is `"object"`, as in JavaScript.) -/
def JSVal.typeOf : JSVal → String
  | .null => "object"
  | .undefVal => "undefined"
  | .bool _ => "boolean"
  | .num _ => "number"
  | .str _ => "string"
  | .arr _ => "object"
  | .obj _ => "object"

/-- Property read `v.name`: on an object, the value of the field if present,
otherwise `undefined`; on every other value the helpers below only read
properties after a `typeof` check, but the model is total and yields
`undefined` there as well. -/
def JSVal.getProp (v : JSVal) (name : String) : JSVal :=
  match v with
  | .obj fields => (fields.lookup name).getD .undefVal
  | _ => .undefVal

/-- Elements of an array value (`[]` for non-arrays; only read after an
`Array.isArray` check). -/
def JSVal.elems : JSVal → List JSVal
  | .arr xs => xs
  | _ => []

/-- `getDroppedPaths` from `src/src/utils/gallery.js` (the identical copy in
`src/src/App.jsx` lines 25–36): extracts the list of dropped paths from a
drag-and-drop event payload, converting each entry with `String(entry)`. -/
def getDroppedPaths (payload : JSVal) : List String :=
  if payload.isArray then
    payload.elems.map jsToString
  else if !payload.truthy || payload.typeOf != "object" then
    []
  else if (payload.getProp "paths").isArray then
    (payload.getProp "paths").elems.map jsToString
  else
    []

/-- A JavaScript number: `NaN`, the two infinities, or a finite value
(modelled as a rational). -/
inductive JSNum where
  | nan
  | posInf
  | negInf
  | fin (q : ℚ)
deriving DecidableEq

/-- JavaScript `Math.min` on two numbers: `NaN` is absorbing, otherwise the
usual order with `-Infinity` at the bottom and `Infinity` at the top. -/
def jsMin (a b : JSNum) : JSNum :=
  match a, b with
  | .nan, _ => .nan
  | _, .nan => .nan
  | .negInf, _ => .negInf
  | _, .negInf => .negInf
  | .posInf, y => y
  | x, .posInf => x
  | .fin x, .fin y => .fin (min x y)

/-- JavaScript `Math.max` on two numbers: `NaN` is absorbing, otherwise the
usual order. -/
def jsMax (a b : JSNum) : JSNum :=
  match a, b with
  | .nan, _ => .nan
  | _, .nan => .nan
  | .posInf, _ => .posInf
  | _, .posInf => .posInf
  | .negInf, y => y
  | x, .negInf => x
  | .fin x, .fin y => .fin (max x y)

/-- `Number.isFinite`. -/
def JSNum.isFinite : JSNum → Bool
  | .fin _ => true
  | _ => false

/-- JavaScript `Math.round`: round half toward positive infinity on finite
values; `NaN` and the infinities are fixed. -/
def jsRound : JSNum → JSNum
  | .fin q => .fin (round q : ℤ)
  | v => v

/-- `MIN_THUMBNAIL_SIZE` (`src/src/App.jsx` line 9; the shared constant file
is not present under `src/`, but every copy in the sources uses 100). -/
def MIN_THUMBNAIL_SIZE : ℚ := 100

/-- `MAX_THUMBNAIL_SIZE` (`src/src/App.jsx` line 10; every copy in the
sources uses 320). -/
def MAX_THUMBNAIL_SIZE : ℚ := 320

/-- `DEFAULT_THUMBNAIL_SIZE`: the fallback `200` used by the thumbnail-size
initializer (`src/src/App.jsx` lines 47 and 52 use the literal `200`). -/
def DEFAULT_THUMBNAIL_SIZE : ℚ := 200

/-- `clampThumbnailSize` from `src/src/utils/gallery.js` lines 3–5 (same
body in `src/src/App.jsx` lines 12–14):
`Math.max(MIN_THUMBNAIL_SIZE, Math.min(MAX_THUMBNAIL_SIZE, value))`. -/
def clampThumbnailSize (value : JSNum) : JSNum :=
  jsMax (.fin MIN_THUMBNAIL_SIZE) (jsMin (.fin MAX_THUMBNAIL_SIZE) value)

/-- The thumbnail size is in the inclusive range `[100, 320]`. -/
def JSNum.inSizeRange : JSNum → Bool
  | .fin q => decide (MIN_THUMBNAIL_SIZE ≤ q ∧ q ≤ MAX_THUMBNAIL_SIZE)
  | _ => false

/-- The initial `thumbnailSize` state of `useThumbnailSize`
(`src/unnamed/part_003` lines 9–18, equally `src/src/App.jsx` lines 45–54):
the argument is the result of the `Number(...)` coercion of the stored
`localStorage` string; non-finite values fall back to the default, finite
values are rounded and clamped. -/
def initialThumbnailSize (storedNum : JSNum) : JSNum :=
  if !storedNum.isFinite then .fin DEFAULT_THUMBNAIL_SIZE
  else clampThumbnailSize (jsRound storedNum)

/-- The exported setter of `useThumbnailSize` (`src/unnamed/part_003`
line 26): the adopted state is `clampThumbnailSize(Number(value))`; the
argument is the result of the `Number(...)` coercion. -/
def setThumbnailSizeValue (coerced : JSNum) : JSNum :=
  clampThumbnailSize coerced

/-- `formatImageCount` from `src/src/utils/gallery.js` lines 11–14: clamp
the count to a non-negative integer (0 for non-finite input) and append the
correctly pluralized noun. -/
def formatImageCount (count : JSNum) : String :=
  let safeCount : ℤ :=
    match count with
    | .fin q => max 0 ⌊q⌋
    | _ => 0
  toString safeCount ++ " image" ++ (if safeCount = 1 then "" else "s")

/-- A gallery item as the frontend consumes it (`response.items` entries and
`galleryItems[i]`): a path and a display name. -/
structure GalleryItem where
  path : String
  name : String
deriving DecidableEq

/-- The `load_gallery` response as `loadGallery` inspects it:
`Array.isArray(response?.items)` is modelled by `items` being `some` list
(`none` stands for a missing or non-array field), likewise
`response?.thumbnails` being a real object, and `response?.cancelled`
truthiness as a Boolean. -/
structure GalleryResponse where
  items : Option (List GalleryItem)
  thumbnails : Option (List (String × String))
  cancelled : Bool

/-- The React state of `useGallery` (`src/src/hooks/useGallery.js` lines
8–16) that `loadGallery` reads or writes, plus the `loadRunIdRef` counter.
The thumbnail map is an association list keyed by path. -/
structure GalleryState where
  loadRunId : ℕ
  items : List GalleryItem
  thumbnailDataByPath : List (String × String)
  status : String
  error : String
  loading : Bool
  loadingText : String
deriving DecidableEq

/-- The synchronous prefix of `loadGallery` (`src/src/hooks/useGallery.js`
lines 56–62), up to the `await invoke('load_gallery', ...)` suspension
point: capture `runId = loadRunIdRef.current + 1`, store it back, and set
the loading/status fields.  Returns the new state and the captured run
token. -/
def loadGalleryStart (folder : String) (s : GalleryState) : GalleryState × ℕ :=
  let runId := s.loadRunId + 1
  ({ s with
      loadRunId := runId
      loading := true
      loadingText := "Preparing thumbnails..."
      error := ""
      thumbnailDataByPath := []
      status := "Scanning " ++ folder ++ "..." },
   runId)

/-- The continuation of `loadGallery` after the `invoke('load_gallery')`
promise settles (`src/src/hooks/useGallery.js` lines 68–96): `runId` is the
token captured at start, `outcome` the settled promise (`Except.error` is a
rejection carrying the thrown value), and `s` the component state at that
moment.  Both the success branch, the catch branch and the `finally` block
first compare `runId` with `loadRunIdRef.current` and do nothing when the
run is stale. -/
def loadGalleryFinish (runId : ℕ) (outcome : Except JSVal GalleryResponse)
    (s : GalleryState) : GalleryState :=
  match outcome with
  | .ok response =>
    if runId ≠ s.loadRunId then s
    else
      let galleryItems := response.items.getD []
      let thumbnails := response.thumbnails.getD []
      let countText := formatImageCount (.fin galleryItems.length)
      { s with
          items := galleryItems
          thumbnailDataByPath := thumbnails
          status :=
            if response.cancelled then
              "Stopped. Loaded " ++ countText ++ " before cancel."
            else
              "Loaded " ++ countText ++ "."
          loading := false
          loadingText := "Loading images..." }
  | .error invokeError =>
    if runId ≠ s.loadRunId then s
    else
      { s with
          items := []
          thumbnailDataByPath := []
          status := "Failed to load folder."
          error := jsToString invokeError
          loading := false
          loadingText := "Loading images..." }

/-- An externally observable `loadGallery` event over the lifetime of the
component: a new call to `loadGallery` (its synchronous prefix), or the
settling of an earlier call's `invoke` promise. -/
inductive GalleryEvent where
  | start (folder : String)
  | finish (runId : ℕ) (outcome : Except JSVal GalleryResponse)

/-- Run a sequence of `loadGallery` events from a state, collecting the run
token captured by each `start` in order. -/
def galleryTrace : List GalleryEvent → GalleryState → GalleryState × List ℕ
  | [], s => (s, [])
  | .start folder :: evs, s =>
    let started := loadGalleryStart folder s
    let rest := galleryTrace evs started.1
    (rest.1, started.2 :: rest.2)
  | .finish runId outcome :: evs, s =>
    galleryTrace evs (loadGalleryFinish runId outcome s)

/-- Where a `hydrateThumbnails` worker (`src/src/App.jsx` lines 224–247)
stands: at the `while` loop head, suspended in the
`await invoke('load_thumbnail', ...)` for item index `idx`, or returned. -/
inductive WorkerPhase where
  | idle
  | awaiting (idx : ℕ)
  | done
deriving DecidableEq

/-- The state of one `hydrateThumbnails(galleryItems, runId)` run
(`src/src/App.jsx` lines 220–251) together with the shared component state
it touches.  `runId` is the argument captured for the whole run, `curRunId`
is `hydrationRunIdRef.current` (which a later `loadGallery` call bumps),
`itemPaths` the paths of `galleryItems`, `cursor` the shared cursor,
`thumbs` the `thumbnailDataByPath` map and `error` the component's error
state (which hydration never writes).  `dispatched` is a ghost history
variable recording, in order, the item indices handed to
`invoke('load_thumbnail')`. -/
structure HydrationState where
  runId : ℕ
  curRunId : ℕ
  itemPaths : List String
  cursor : ℕ
  dispatched : List ℕ
  thumbs : List (String × String)
  error : String
  workers : List WorkerPhase
deriving DecidableEq

/-- The worker pool spawned by `hydrateThumbnails`
(`src/src/App.jsx` lines 249–250):
`Array.from({ length: Math.min(6, galleryItems.length) }, () => worker())`,
every worker starting at its loop head with a shared cursor at 0. -/
def hydInit (runId curRunId : ℕ) (itemPaths : List String) : HydrationState :=
  { runId := runId
    curRunId := curRunId
    itemPaths := itemPaths
    cursor := 0
    dispatched := []
    thumbs := []
    error := ""
    workers := List.replicate (min 6 itemPaths.length) .idle }

/-- The phase of worker `i`. -/
def workerAt (s : HydrationState) (i : ℕ) : Option WorkerPhase :=
  s.workers.get? i

/-- Replace the phase of worker `i`. -/
def setWorker (s : HydrationState) (i : ℕ) (p : WorkerPhase) : HydrationState :=
  { s with workers := s.workers.set i p }

/-- One synchronous loop iteration head of worker `i`
(`src/src/App.jsx` lines 225–230): evaluate
`cursor < galleryItems.length && runId === hydrationRunIdRef.current`; when
it holds, atomically take the cursor index, advance the cursor and enter the
`await` for that item (recording the dispatch); otherwise the worker's
`async` function returns. -/
def hydTake (i : ℕ) (s : HydrationState) : HydrationState :=
  if s.cursor < s.itemPaths.length ∧ s.runId = s.curRunId then
    { s with
        cursor := s.cursor + 1
        dispatched := s.dispatched ++ [s.cursor]
        workers := s.workers.set i (.awaiting s.cursor) }
  else
    setWorker s i .done

/-- The functional update passed to `setThumbnailDataByPath`
(`src/src/App.jsx` lines 237–242): if `prev[item.path]` is truthy (a
non-empty string) keep `prev` unchanged, otherwise spread-copy `prev` with
the stringified data URL at the item's path. -/
def mergeThumb (path url : String) (prev : List (String × String)) :
    List (String × String) :=
  match prev.lookup path with
  | some existing =>
    if existing ≠ "" then prev
    else prev.map fun entry => if entry.1 = path then (path, url) else entry
  | none => prev ++ [(path, url)]

/-- Worker `i` resumes from its `await invoke('load_thumbnail', ...)`
(`src/src/App.jsx` lines 230–245) with the settled promise: on rejection the
empty `catch` swallows the error and the loop continues; on fulfilment the
worker returns if its `runId` is stale, and otherwise merges the
stringified data URL into the thumbnail map and continues the loop. -/
def hydResume (i : ℕ) (result : Except Unit String) (s : HydrationState) :
    HydrationState :=
  match workerAt s i with
  | some (.awaiting idx) =>
    match result with
    | .error _ => setWorker s i .idle
    | .ok url =>
      if s.runId ≠ s.curRunId then
        setWorker s i .done
      else
        { setWorker s i .idle with
            thumbs := mergeThumb (s.itemPaths.getD idx "") url s.thumbs }
  | _ => s

/-- The synchronous prefix of a new `loadGallery` call as hydration sees it
(`src/src/App.jsx` lines 261–262): `hydrationRunIdRef.current += 1` and
`setThumbnailDataByPath({})` (the new call also resets the error state). -/
def hydBump (s : HydrationState) : HydrationState :=
  { s with curRunId := s.curRunId + 1, thumbs := [], error := "" }

/-- Small-step relation for a hydration run interleaved with possible later
`loadGallery` calls: any idle worker may run its loop head, any suspended
worker may be resumed with a fulfilment or a rejection, and a new
`loadGallery` call may bump the shared run counter at any point. -/
inductive HydStep : HydrationState → HydrationState → Prop where
  | take (s : HydrationState) (i : ℕ) (h : workerAt s i = some .idle) :
      HydStep s (hydTake i s)
  | resume (s : HydrationState) (i idx : ℕ) (result : Except Unit String)
      (h : workerAt s i = some (.awaiting idx)) :
      HydStep s (hydResume i result s)
  | bump (s : HydrationState) : HydStep s (hydBump s)

/-- Small-step relation of a hydration run alone (no interleaved
`loadGallery` call bumps the run counter). -/
inductive HydStepQ : HydrationState → HydrationState → Prop where
  | take (s : HydrationState) (i : ℕ) (h : workerAt s i = some .idle) :
      HydStepQ s (hydTake i s)
  | resume (s : HydrationState) (i idx : ℕ) (result : Except Unit String)
      (h : workerAt s i = some (.awaiting idx)) :
      HydStepQ s (hydResume i result s)

/-- Reachability in the interleaved system. -/
def HydReach : HydrationState → HydrationState → Prop :=
  Relation.ReflTransGen HydStep

/-- Reachability without interleaved `loadGallery` calls. -/
def HydReachQ : HydrationState → HydrationState → Prop :=
  Relation.ReflTransGen HydStepQ

/-- A state from which no worker can step: the `Promise.all` of
`hydrateThumbnails` has resolved. -/
def HydStuck (s : HydrationState) : Prop :=
  ∀ t, ¬ HydStepQ s t

/-- Every worker's `async` function has returned. -/
def AllDone (s : HydrationState) : Prop :=
  ∀ p ∈ s.workers, p = WorkerPhase.done

/-- Progress weight of a worker phase, used to show a hydration run always
resolves: a suspended worker is two observable steps from returning at the
cursor's end, an idle worker one. -/
def phaseWeight : WorkerPhase → ℕ
  | .idle => 2
  | .awaiting _ => 3
  | .done => 0

/-- Total progress weight of a worker pool. -/
def weightSum : List WorkerPhase → ℕ
  | [] => 0
  | p :: ps => phaseWeight p + weightSum ps

/-- Termination measure of a hydration run: remaining cursor distance plus
the workers' progress weights. -/
def hydMeasure (s : HydrationState) : ℕ :=
  3 * (s.itemPaths.length - s.cursor) + weightSum s.workers

/-- Modelled from the spec: the backend cache-key function is Rust code not
present under `src/` (the spec: the key is "derived deterministically from
`(absolute_path, modified_time)` via a cryptographic hash", "pure and
collision-resistant", and "it never consults cache state").  The hash is
modelled as a collision-free deterministic function of exactly the path and
the modification time — the pairing itself. -/
def cacheKey (path : String) (modifiedTime : ℕ) : String × ℕ :=
  (path, modifiedTime)

/-! ### Helper lemmas -/

/-- Settling a `load_gallery` promise never changes the run counter: only a
new `loadGallery` call writes `loadRunIdRef`. -/
theorem loadGalleryFinish_loadRunId (runId : ℕ)
    (outcome : Except JSVal GalleryResponse) (s : GalleryState) :
    (loadGalleryFinish runId outcome s).loadRunId = s.loadRunId := by
  cases outcome with
  | ok response =>
    by_cases h : runId = s.loadRunId <;> simp [loadGalleryFinish, h]
  | error e =>
    by_cases h : runId = s.loadRunId <;> simp [loadGalleryFinish, h]

/-- Every run token captured along an event trace is strictly greater than
the counter value at the trace's start. -/
theorem galleryTrace_tokens_gt (evs : List GalleryEvent) :
    ∀ (s : GalleryState) (t : ℕ),
      t ∈ (galleryTrace evs s).2 → s.loadRunId < t := by
  induction evs with
  | nil =>
    intro s t ht
    simp [galleryTrace] at ht
  | cons e evs ih =>
    intro s t ht
    cases e with
    | start folder =>
      simp only [galleryTrace, List.mem_cons] at ht
      rcases ht with h | h
      · simp [h, loadGalleryStart]
      · have := ih _ _ h
        simp only [loadGalleryStart] at this
        omega
    | finish runId outcome =>
      simp only [galleryTrace] at ht
      have := ih _ _ ht
      rwa [loadGalleryFinish_loadRunId] at this

/-! ### Claims -/

/-- Claim C1: results from a superseded run are never published.  In
`loadGallery`, when the settled run's token differs from the current one the
whole continuation (success branch, catch branch and `finally` block) leaves
the state untouched; in `hydrateThumbnails`, a worker resuming under a stale
run id never merges its fetched thumbnail into the displayed map. -/
theorem stale_run_results_never_published :
    (∀ (runId : ℕ) (outcome : Except JSVal GalleryResponse) (s : GalleryState),
        runId ≠ s.loadRunId → loadGalleryFinish runId outcome s = s) ∧
    ∀ (i : ℕ) (result : Except Unit String) (s : HydrationState),
      s.runId ≠ s.curRunId → (hydResume i result s).thumbs = s.thumbs := by
  constructor
  · intro runId outcome s h
    cases outcome <;> simp [loadGalleryFinish, h]
  · intro i result s h
    unfold hydResume
    cases hw : workerAt s i with
    | none => rfl
    | some p =>
      cases p with
      | idle => rfl
      | awaiting idx =>
        cases result with
        | error u => simp [setWorker]
        | ok url => simp [h, setWorker]
      | done => rfl

/-- Witness for C1: a response settling under token 1 while the counter is
at 2 changes nothing, and a worker of hydration run 1 that resumes after the
counter moved to 2 leaves the (empty) thumbnail map alone. -/
theorem stale_run_results_never_published_witness :
    loadGalleryFinish 1
        (.ok { items := some [{ path := "p", name := "n" }],
               thumbnails := some [("p", "d")], cancelled := false })
        { loadRunId := 2, items := [], thumbnailDataByPath := [],
          status := "", error := "", loading := true, loadingText := "" } =
      { loadRunId := 2, items := [], thumbnailDataByPath := [],
        status := "", error := "", loading := true, loadingText := "" } ∧
    (hydResume 0 (.ok "u") (hydBump (hydTake 0 (hydInit 1 1 ["a"])))).thumbs =
      (hydBump (hydTake 0 (hydInit 1 1 ["a"]))).thumbs := by
  constructor
  · exact stale_run_results_never_published.1 1 _ _ (by decide)
  · exact stale_run_results_never_published.2 0 _ _ (by decide)

/-- Claim C3: every `loadGallery` call increments the run counter by exactly
one and that value is the token it captures; consequently the tokens
captured over any event sequence of the component's lifetime are strictly
increasing, so two scans never share a token. -/
theorem loadGallery_run_tokens_strictly_increase :
    (∀ (folder : String) (s : GalleryState),
        (loadGalleryStart folder s).1.loadRunId = s.loadRunId + 1 ∧
        (loadGalleryStart folder s).2 = s.loadRunId + 1) ∧
    ∀ (evs : List GalleryEvent) (s : GalleryState),
      (galleryTrace evs s).2.Pairwise (· < ·) := by
  constructor
  · intro folder s
    exact ⟨rfl, rfl⟩
  · intro evs
    induction evs with
    | nil =>
      intro s
      simp [galleryTrace]
    | cons e evs ih =>
      intro s
      cases e with
      | start folder =>
        simp only [galleryTrace]
        refine List.Pairwise.cons ?_ (ih _)
        intro t ht
        have h := galleryTrace_tokens_gt evs _ t ht
        simp only [loadGalleryStart] at h ⊢
        omega
      | finish runId outcome =>
        simpa only [galleryTrace] using ih _

/-- Claim C5: a rejected `load_gallery` invocation for the current run
resets the item list and the thumbnail map to empty, sets the folder-level
failure status, and records the stringified error. -/
theorem loadGallery_failure_resets_state :
    ∀ (e : JSVal) (runId : ℕ) (s : GalleryState), runId = s.loadRunId →
      (loadGalleryFinish runId (.error e) s).items = [] ∧
      (loadGalleryFinish runId (.error e) s).thumbnailDataByPath = [] ∧
      (loadGalleryFinish runId (.error e) s).status = "Failed to load folder." ∧
      (loadGalleryFinish runId (.error e) s).error = jsToString e := by
  intro e runId s h
  simp [loadGalleryFinish, h]

/-- Witness for C5: a current-run rejection with the thrown string value
leaves an empty gallery, the folder-level message and the recorded error. -/
theorem loadGallery_failure_resets_state_witness :
    (loadGalleryFinish 4 (.error (.str "boom"))
        { loadRunId := 4, items := [{ path := "p", name := "n" }],
          thumbnailDataByPath := [("p", "d")], status := "old", error := "",
          loading := true, loadingText := "t" }).items = [] ∧
    (loadGalleryFinish 4 (.error (.str "boom"))
        { loadRunId := 4, items := [{ path := "p", name := "n" }],
          thumbnailDataByPath := [("p", "d")], status := "old", error := "",
          loading := true, loadingText := "t" }).status = "Failed to load folder." ∧
    (loadGalleryFinish 4 (.error (.str "boom"))
        { loadRunId := 4, items := [{ path := "p", name := "n" }],
          thumbnailDataByPath := [("p", "d")], status := "old", error := "",
          loading := true, loadingText := "t" }).error = "boom" := by
  have h := loadGallery_failure_resets_state (.str "boom") 4
    { loadRunId := 4, items := [{ path := "p", name := "n" }],
      thumbnailDataByPath := [("p", "d")], status := "old", error := "",
      loading := true, loadingText := "t" } rfl
  refine ⟨h.1, h.2.2.1, ?_⟩
  rw [h.2.2.2]
  rfl

/-- Claim C6: for a current-run response, the processed item subset is
displayed whether or not the run was cancelled; `cancelled = true` yields
the distinct cancel status and otherwise the normal loaded-count status is
shown; the success branch never touches the error state, so cancellation is
an outcome flag, not a thrown error. -/
theorem loadGallery_cancelled_is_outcome_flag :
    ∀ (response : GalleryResponse) (runId : ℕ) (s : GalleryState),
      runId = s.loadRunId →
      (loadGalleryFinish runId (.ok response) s).items = response.items.getD [] ∧
      (loadGalleryFinish runId (.ok response) s).status =
        (if response.cancelled then
          "Stopped. Loaded " ++
            formatImageCount (.fin (response.items.getD []).length) ++
            " before cancel."
        else
          "Loaded " ++
            formatImageCount (.fin (response.items.getD []).length) ++ ".") ∧
      (loadGalleryFinish runId (.ok response) s).error = s.error := by
  intro response runId s h
  refine ⟨?_, ?_, ?_⟩ <;> simp [loadGalleryFinish, h]

/-- Witness for C6: a cancelled response with two items yields the cancel
status naming both items, an uncancelled one-item response the normal
status, and neither touches the error state. -/
theorem loadGallery_cancelled_is_outcome_flag_witness :
    (loadGalleryFinish 7
        (.ok { items := some [{ path := "a", name := "a" },
                              { path := "b", name := "b" }],
               thumbnails := none, cancelled := true })
        { loadRunId := 7, items := [], thumbnailDataByPath := [],
          status := "", error := "e0", loading := true,
          loadingText := "" }).status =
      "Stopped. Loaded 2 images before cancel." ∧
    (loadGalleryFinish 7
        (.ok { items := some [{ path := "a", name := "a" }],
               thumbnails := none, cancelled := false })
        { loadRunId := 7, items := [], thumbnailDataByPath := [],
          status := "", error := "e0", loading := true,
          loadingText := "" }).status = "Loaded 1 image." ∧
    (loadGalleryFinish 7
        (.ok { items := some [{ path := "a", name := "a" }],
               thumbnails := none, cancelled := false })
        { loadRunId := 7, items := [], thumbnailDataByPath := [],
          status := "", error := "e0", loading := true,
          loadingText := "" }).error = "e0" := by
  refine ⟨?_, ?_, ?_⟩
  · have h := (loadGallery_cancelled_is_outcome_flag
      { items := some [{ path := "a", name := "a" },
                       { path := "b", name := "b" }],
        thumbnails := none, cancelled := true } 7
      { loadRunId := 7, items := [], thumbnailDataByPath := [],
        status := "", error := "e0", loading := true,
        loadingText := "" } rfl).2.1
    rw [h]
    rfl
  · have h := (loadGallery_cancelled_is_outcome_flag
      { items := some [{ path := "a", name := "a" }],
        thumbnails := none, cancelled := false } 7
      { loadRunId := 7, items := [], thumbnailDataByPath := [],
        status := "", error := "e0", loading := true,
        loadingText := "" } rfl).2.1
    rw [h]
    rfl
  · exact (loadGallery_cancelled_is_outcome_flag
      { items := some [{ path := "a", name := "a" }],
        thumbnails := none, cancelled := false } 7
      { loadRunId := 7, items := [], thumbnailDataByPath := [],
        status := "", error := "e0", loading := true,
        loadingText := "" } rfl).2.2

/-- Claim C7: the cache key (spec-modelled, the Rust backend is not under
the sources) is a pure, stable function of path and modification time, and
for a fixed path two distinct modification times always yield distinct
keys. -/
theorem cacheKey_pure_and_mtime_sensitive :
    ∀ (p : String) (t : ℕ), cacheKey p t = cacheKey p t ∧
      ∀ (t1 t2 : ℕ), t1 ≠ t2 → cacheKey p t1 ≠ cacheKey p t2 := by
  intro p t
  refine ⟨rfl, ?_⟩
  intro t1 t2 hne h
  exact hne (congrArg Prod.snd h)

/-- Witness for C7: changing the modification time from 10 to 11 changes
the key of the same path. -/
theorem cacheKey_pure_and_mtime_sensitive_witness :
    cacheKey "/img/a.jpg" 10 = cacheKey "/img/a.jpg" 10 ∧
    cacheKey "/img/a.jpg" 10 ≠ cacheKey "/img/a.jpg" 11 :=
  ⟨(cacheKey_pure_and_mtime_sensitive "/img/a.jpg" 10).1,
   (cacheKey_pure_and_mtime_sensitive "/img/a.jpg" 10).2 10 11 (by decide)⟩

/-- Clamping a finite number always lands in the inclusive size range. -/
theorem clampThumbnailSize_fin_in_range (q : ℚ) :
    (clampThumbnailSize (.fin q)).inSizeRange = true := by
  simp only [clampThumbnailSize, jsMin, jsMax, JSNum.inSizeRange,
    MIN_THUMBNAIL_SIZE, MAX_THUMBNAIL_SIZE, decide_eq_true_eq]
  exact ⟨le_max_left _ _, max_le (by norm_num) (min_le_left _ _)⟩

/-- Claim C8, counterexample: `NaN` is a JavaScript number
(`typeof NaN` is `number`), `Math.min`/`Math.max` propagate it, so
`clampThumbnailSize(NaN)` is `NaN`, which lies outside the inclusive range
`[100, 320]` — the claim's universal statement over numeric inputs fails. -/
theorem clampThumbnailSize_nan_escapes_range :
    clampThumbnailSize .nan = .nan ∧
    (clampThumbnailSize .nan).inSizeRange = false := by
  exact ⟨rfl, rfl⟩

/-- Claim C8 as amended: for every numeric input other than `NaN`,
`clampThumbnailSize` lands in the inclusive range `[100, 320]` and is the
identity on in-range values; the initial size adopted from `localStorage`
is always in range (non-finite stored values fall back to the default), and
every value the setter adopts is in range whenever its numeric coercion is
not `NaN`. -/
theorem thumbnail_size_clamped_in_range_unless_nan :
    (∀ v : JSNum, v ≠ .nan → (clampThumbnailSize v).inSizeRange = true) ∧
    (∀ v : JSNum, v.inSizeRange = true → clampThumbnailSize v = v) ∧
    (∀ stored : JSNum, (initialThumbnailSize stored).inSizeRange = true) ∧
    (∀ v : JSNum, v ≠ .nan → (setThumbnailSizeValue v).inSizeRange = true) := by
  have hclamp : ∀ v : JSNum, v ≠ .nan →
      (clampThumbnailSize v).inSizeRange = true := by
    intro v hv
    cases v with
    | nan => exact absurd rfl hv
    | posInf => decide
    | negInf => decide
    | fin q => exact clampThumbnailSize_fin_in_range q
  refine ⟨hclamp, ?_, ?_, ?_⟩
  · intro v hv
    cases v with
    | nan => simp [JSNum.inSizeRange] at hv
    | posInf => simp [JSNum.inSizeRange] at hv
    | negInf => simp [JSNum.inSizeRange] at hv
    | fin q =>
      simp only [JSNum.inSizeRange, MIN_THUMBNAIL_SIZE, MAX_THUMBNAIL_SIZE,
        decide_eq_true_eq] at hv
      simp only [clampThumbnailSize, jsMin, jsMax, MIN_THUMBNAIL_SIZE,
        MAX_THUMBNAIL_SIZE]
      rw [min_eq_right hv.2, max_eq_right hv.1]
  · intro stored
    cases stored with
    | nan => decide
    | posInf => decide
    | negInf => decide
    | fin q =>
      simp only [initialThumbnailSize, JSNum.isFinite, Bool.not_true,
        Bool.false_eq_true, if_false, jsRound]
      exact clampThumbnailSize_fin_in_range _
  · intro v hv
    exact hclamp v hv

/-- Witness for the amended C8: concrete clamped, identity, initial and
setter values all land in range. -/
theorem thumbnail_size_clamped_in_range_unless_nan_witness :
    (clampThumbnailSize (.fin 500)).inSizeRange = true ∧
    clampThumbnailSize (.fin 150) = .fin 150 ∧
    (initialThumbnailSize .nan).inSizeRange = true ∧
    (setThumbnailSizeValue (.fin 42)).inSizeRange = true := by
  refine ⟨?_, ?_, ?_, ?_⟩
  · exact thumbnail_size_clamped_in_range_unless_nan.1 (.fin 500) (by decide)
  · exact thumbnail_size_clamped_in_range_unless_nan.2.1 (.fin 150) (by decide)
  · exact thumbnail_size_clamped_in_range_unless_nan.2.2.1 .nan
  · exact thumbnail_size_clamped_in_range_unless_nan.2.2.2 (.fin 42) (by decide)

/-- Claim C10: `getDroppedPaths` is total and returns a list of strings: on
an array payload it returns the element-wise string conversion of the
array; on an object payload whose `paths` field is an array it returns the
element-wise string conversion of that field; on every other payload (null,
non-object, object without an array `paths` field) it returns the empty
list. -/
theorem getDroppedPaths_total_shape :
    (∀ xs : List JSVal, getDroppedPaths (.arr xs) = xs.map jsToString) ∧
    (∀ (fields : List (String × JSVal)) (xs : List JSVal),
        fields.lookup "paths" = some (.arr xs) →
        getDroppedPaths (.obj fields) = xs.map jsToString) ∧
    ∀ payload : JSVal, payload.isArray = false →
      (∀ fields, payload = .obj fields →
        ∀ xs, fields.lookup "paths" ≠ some (.arr xs)) →
      getDroppedPaths payload = [] := by
  refine ⟨?_, ?_, ?_⟩
  · intro xs
    rfl
  · intro fields xs h
    have hcond : ((!(JSVal.obj fields).truthy) ||
        ((JSVal.obj fields).typeOf != "object")) = false := rfl
    simp [getDroppedPaths, hcond, JSVal.getProp, h, JSVal.isArray, JSVal.elems]
  · intro payload h1 h2
    cases payload with
    | null => rfl
    | undefVal => rfl
    | bool b => cases b <;> rfl
    | num q =>
      have hcond : ((JSVal.num q).typeOf != "object") = true := rfl
      simp [getDroppedPaths, hcond, JSVal.isArray]
    | str s =>
      have hcond : ((JSVal.str s).typeOf != "object") = true := rfl
      simp [getDroppedPaths, hcond, JSVal.isArray]
    | arr xs => simp [JSVal.isArray] at h1
    | obj fields =>
      have hcond : ((!(JSVal.obj fields).truthy) ||
          ((JSVal.obj fields).typeOf != "object")) = false := rfl
      cases hl : fields.lookup "paths" with
      | none => simp [getDroppedPaths, hcond, JSVal.getProp, hl, JSVal.isArray]
      | some v =>
        cases v with
        | arr xs => exact absurd hl (h2 fields rfl xs)
        | null => simp [getDroppedPaths, hcond, JSVal.getProp, hl, JSVal.isArray]
        | undefVal => simp [getDroppedPaths, hcond, JSVal.getProp, hl, JSVal.isArray]
        | bool b => simp [getDroppedPaths, hcond, JSVal.getProp, hl, JSVal.isArray]
        | num q => simp [getDroppedPaths, hcond, JSVal.getProp, hl, JSVal.isArray]
        | str t => simp [getDroppedPaths, hcond, JSVal.getProp, hl, JSVal.isArray]
        | obj g => simp [getDroppedPaths, hcond, JSVal.getProp, hl, JSVal.isArray]

/-- Witness for C10: a payload object carrying a mixed-type `paths` array
maps element-wise through string conversion, and a string payload yields
the empty list. -/
theorem getDroppedPaths_total_shape_witness :
    getDroppedPaths (.obj [("paths", .arr [.str "/a", .num 3, .null])]) =
      ["/a", "3", "null"] ∧
    getDroppedPaths (.str "/a") = [] := by
  constructor
  · have h := getDroppedPaths_total_shape.2.1
      [("paths", .arr [.str "/a", .num 3, .null])] [.str "/a", .num 3, .null]
      (by rfl)
    rw [h]
    simp only [List.map, jsToString]
    rfl
  · exact getDroppedPaths_total_shape.2.2 (.str "/a") rfl
      (by intro fields hf; cases hf)

/-- `hydResume` only changes the worker phase and possibly the thumbnail
map: cursor, dispatch history, item list, run counters, error state and
pool size are untouched. -/
theorem hydResume_frame (i : ℕ) (res : Except Unit String) (s : HydrationState) :
    (hydResume i res s).dispatched = s.dispatched ∧
    (hydResume i res s).cursor = s.cursor ∧
    (hydResume i res s).itemPaths = s.itemPaths ∧
    (hydResume i res s).runId = s.runId ∧
    (hydResume i res s).curRunId = s.curRunId ∧
    (hydResume i res s).error = s.error ∧
    (hydResume i res s).workers.length = s.workers.length := by
  unfold hydResume
  repeat first
  | exact ⟨rfl, rfl, rfl, rfl, rfl, rfl, by simp [setWorker]⟩
  | split

/-- One step of the interleaved hydration system preserves the dispatch
invariant: the ghost dispatch history is exactly the cursor's range, the
cursor never passes the item count, and the item list is fixed. -/
theorem hydStep_dispatch_inv {s t : HydrationState} (hstep : HydStep s t)
    (h1 : s.dispatched = List.range s.cursor)
    (h2 : s.cursor ≤ s.itemPaths.length) :
    t.dispatched = List.range t.cursor ∧ t.cursor ≤ t.itemPaths.length ∧
      t.itemPaths = s.itemPaths := by
  cases hstep with
  | take i h =>
    unfold hydTake
    by_cases hc : s.cursor < s.itemPaths.length ∧ s.runId = s.curRunId
    · rw [if_pos hc]
      refine ⟨?_, by simpa using hc.1, rfl⟩
      simp only [h1]
      exact (List.range_succ s.cursor).symm
    · rw [if_neg hc]
      exact ⟨h1, h2, rfl⟩
  | resume i idx res h =>
    obtain ⟨d, c, ip, -, -, -, -⟩ := hydResume_frame i res s
    rw [d, c, ip]
    exact ⟨h1, h2, rfl⟩
  | bump => exact ⟨h1, h2, rfl⟩

/-- The dispatch invariant holds in every state reachable from a pool
start, even interleaved with later `loadGallery` calls. -/
theorem hydReach_dispatch_inv {s0 s : HydrationState} (hreach : HydReach s0 s)
    (h1 : s0.dispatched = List.range s0.cursor)
    (h2 : s0.cursor ≤ s0.itemPaths.length) :
    s.dispatched = List.range s.cursor ∧ s.cursor ≤ s.itemPaths.length ∧
      s.itemPaths = s0.itemPaths := by
  induction hreach with
  | refl => exact ⟨h1, h2, rfl⟩
  | tail hr hstep ih =>
    obtain ⟨i1, i2, i3⟩ := ih
    obtain ⟨j1, j2, j3⟩ := hydStep_dispatch_inv hstep i1 i2
    exact ⟨j1, j2, i3 ▸ j3⟩

/-- Claim C2: `hydrateThumbnails` spawns exactly `min(6, item_count)`
workers, and in every reachable state of the pool — even interleaved with
later `loadGallery` calls — the item indices handed to `load_thumbnail`
are pairwise distinct and in range: each item of the list is dispatched at
most once. -/
theorem hydration_pool_size_and_at_most_once_dispatch :
    ∀ (runId curRunId : ℕ) (paths : List String),
      (hydInit runId curRunId paths).workers.length = min 6 paths.length ∧
      ∀ s, HydReach (hydInit runId curRunId paths) s →
        s.dispatched.Nodup ∧ ∀ k ∈ s.dispatched, k < paths.length := by
  intro runId curRunId paths
  constructor
  · simp [hydInit]
  · intro s hs
    obtain ⟨h1, h2, h3⟩ := hydReach_dispatch_inv hs (by simp [hydInit])
      (by simp [hydInit])
    rw [h3] at h2
    have hip : (hydInit runId curRunId paths).itemPaths = paths := rfl
    rw [hip] at h2
    constructor
    · rw [h1]
      exact List.nodup_range _
    · intro k hk
      rw [h1] at hk
      have := List.mem_range.mp hk
      omega

/-- Witness for C2: a single-item list spawns `min 6 1 = 1` worker, and
after one loop iteration and its resumption the dispatch history is the
duplicate-free `[0]`. -/
theorem hydration_pool_size_and_at_most_once_dispatch_witness :
    (hydInit 1 1 ["a"]).workers.length = min 6 1 ∧
    (hydResume 0 (.ok "d") (hydTake 0 (hydInit 1 1 ["a"]))).dispatched.Nodup := by
  have h := hydration_pool_size_and_at_most_once_dispatch 1 1 ["a"]
  refine ⟨h.1, ?_⟩
  refine (h.2 _ ?_).1
  refine Relation.ReflTransGen.tail (Relation.ReflTransGen.tail
    Relation.ReflTransGen.refl (HydStep.take _ 0 rfl)) ?_
  exact HydStep.resume _ 0 0 (.ok "d") rfl

/-- Replacing a pool entry exchanges exactly its weight in the total. -/
theorem weightSum_set (l : List WorkerPhase) (i : ℕ) (p ph : WorkerPhase)
    (h : l.get? i = some ph) :
    weightSum (l.set i p) + phaseWeight ph = weightSum l + phaseWeight p := by
  induction l generalizing i with
  | nil => simp at h
  | cons a l ih =>
    cases i with
    | zero =>
      simp only [List.get?] at h
      injection h with h
      subst h
      simp only [List.set, weightSum]
      omega
    | succ i =>
      simp only [List.get?] at h
      have := ih i h
      simp only [List.set, weightSum]
      omega

/-- The worker pool after a resumption, by branch. -/
theorem hydResume_workers (i idx : ℕ) (s : HydrationState)
    (h : workerAt s i = some (.awaiting idx)) :
    (∀ u : Unit, (hydResume i (.error u) s).workers = s.workers.set i .idle) ∧
    (∀ url : String, s.runId ≠ s.curRunId →
      (hydResume i (.ok url) s).workers = s.workers.set i .done) ∧
    (∀ url : String, s.runId = s.curRunId →
      (hydResume i (.ok url) s).workers = s.workers.set i .idle) := by
  refine ⟨?_, ?_, ?_⟩
  · intro u
    unfold hydResume
    rw [h]
    rfl
  · intro url hr
    unfold hydResume
    rw [h]
    show (if s.runId ≠ s.curRunId then setWorker s i .done else _).workers = _
    rw [if_pos hr]
    rfl
  · intro url hr
    unfold hydResume
    rw [h]
    show (if s.runId ≠ s.curRunId then setWorker s i .done else _).workers = _
    rw [if_neg (by exact fun hne => hne hr)]
    rfl

/-- Every worker step strictly decreases the termination measure. -/
theorem hydStepQ_measure_decrease {s t : HydrationState} (hst : HydStepQ s t) :
    hydMeasure t < hydMeasure s := by
  cases hst with
  | take i h =>
    unfold hydTake
    by_cases hc : s.cursor < s.itemPaths.length ∧ s.runId = s.curRunId
    · rw [if_pos hc]
      have hws := weightSum_set s.workers i (.awaiting s.cursor) .idle h
      have hcl := hc.1
      show 3 * (s.itemPaths.length - (s.cursor + 1)) +
          weightSum (s.workers.set i (.awaiting s.cursor)) <
        3 * (s.itemPaths.length - s.cursor) + weightSum s.workers
      simp only [phaseWeight] at hws
      omega
    · rw [if_neg hc]
      have hws := weightSum_set s.workers i .done .idle h
      show 3 * (s.itemPaths.length - s.cursor) +
          weightSum (s.workers.set i .done) <
        3 * (s.itemPaths.length - s.cursor) + weightSum s.workers
      simp only [phaseWeight] at hws
      omega
  | resume i idx res hw =>
    obtain ⟨-, hcur, hip, -, -, -, -⟩ := hydResume_frame i res s
    have hmeq : hydMeasure (hydResume i res s) =
        3 * (s.itemPaths.length - s.cursor) +
          weightSum (hydResume i res s).workers := by
      simp only [hydMeasure, hcur, hip]
    rw [hmeq]
    obtain ⟨he, hstale, hcurr⟩ := hydResume_workers i idx s hw
    cases res with
    | error u =>
      rw [he u]
      have hws := weightSum_set s.workers i .idle (.awaiting idx) hw
      show _ < 3 * (s.itemPaths.length - s.cursor) + weightSum s.workers
      simp only [phaseWeight] at hws
      omega
    | ok url =>
      by_cases hr : s.runId = s.curRunId
      · rw [hcurr url hr]
        have hws := weightSum_set s.workers i .idle (.awaiting idx) hw
        show _ < 3 * (s.itemPaths.length - s.cursor) + weightSum s.workers
        simp only [phaseWeight] at hws
        omega
      · rw [hstale url hr]
        have hws := weightSum_set s.workers i .done (.awaiting idx) hw
        show _ < 3 * (s.itemPaths.length - s.cursor) + weightSum s.workers
        simp only [phaseWeight] at hws
        omega

/-- If no worker can step, every worker has returned. -/
theorem hydStuck_allDone {s : HydrationState} (hstuck : HydStuck s) :
    AllDone s := by
  intro p hp
  obtain ⟨i, hi⟩ := List.get?_of_mem hp
  cases p with
  | idle => exact absurd (HydStepQ.take s i hi) (hstuck _)
  | awaiting idx => exact absurd (HydStepQ.resume s i idx (.ok "") hi) (hstuck _)
  | done => rfl

/-- A worker step of a current-run pool keeps the run current, the item
list and pool size fixed, advances the cursor monotonically, and preserves
that a returned worker implies the cursor has reached the end. -/
theorem hydStepQ_run_inv {s t : HydrationState} (hst : HydStepQ s t)
    (hrun : s.runId = s.curRunId)
    (hdone : ∀ p ∈ s.workers, p = WorkerPhase.done →
      s.itemPaths.length ≤ s.cursor) :
    t.runId = t.curRunId ∧ t.itemPaths = s.itemPaths ∧
      t.workers.length = s.workers.length ∧
      (∀ p ∈ t.workers, p = WorkerPhase.done →
        t.itemPaths.length ≤ t.cursor) := by
  cases hst with
  | take i h =>
    unfold hydTake
    by_cases hc : s.cursor < s.itemPaths.length ∧ s.runId = s.curRunId
    · rw [if_pos hc]
      refine ⟨hrun, rfl, by simp, ?_⟩
      intro p hp hpd
      show s.itemPaths.length ≤ s.cursor + 1
      rcases List.mem_or_eq_of_mem_set hp with hmem | heq
      · have := hdone p hmem hpd
        omega
      · rw [hpd] at heq
        simp at heq
    · rw [if_neg hc]
      have hnlt : ¬ s.cursor < s.itemPaths.length := fun h' => hc ⟨h', hrun⟩
      refine ⟨hrun, rfl, by simp [setWorker], ?_⟩
      intro p hp hpd
      show s.itemPaths.length ≤ s.cursor
      omega
  | resume i idx res hw =>
    obtain ⟨-, hcur, hip, hrid, hcrid, -, hlen⟩ := hydResume_frame i res s
    obtain ⟨he, hstale, hcurr⟩ := hydResume_workers i idx s hw
    have hworkers : (hydResume i res s).workers = s.workers.set i .idle := by
      cases res with
      | error u => exact he u
      | ok url => exact hcurr url hrun
    refine ⟨by rw [hrid, hcrid]; exact hrun, hip, hlen, ?_⟩
    intro p hp hpd
    rw [hip, hcur]
    rw [hworkers] at hp
    rcases List.mem_or_eq_of_mem_set hp with hmem | heq
    · exact hdone p hmem hpd
    · rw [hpd] at heq
      simp at heq

/-- The run invariant along any bump-free execution from a pool start whose
run is current. -/
theorem hydReachQ_run_inv {rid : ℕ} {paths : List String} {s : HydrationState}
    (h : HydReachQ (hydInit rid rid paths) s) :
    s.runId = s.curRunId ∧ s.itemPaths = paths ∧
      s.workers.length = min 6 paths.length ∧
      (∀ p ∈ s.workers, p = WorkerPhase.done → paths.length ≤ s.cursor) := by
  induction h with
  | refl =>
    refine ⟨rfl, rfl, by simp [hydInit], ?_⟩
    intro p hp hpd
    have hrep := List.eq_of_mem_replicate hp
    rw [hpd] at hrep
    simp at hrep
  | @tail b c hr hst ih =>
    obtain ⟨i1, i2, i3, i4⟩ := ih
    have i4' : ∀ p ∈ b.workers, p = WorkerPhase.done →
        b.itemPaths.length ≤ b.cursor := by
      intro p hp hpd
      rw [i2]
      exact i4 p hp hpd
    obtain ⟨j1, j2, j3, j4⟩ := hydStepQ_run_inv hst i1 i4'
    refine ⟨j1, j2.trans i2, j3.trans i3, ?_⟩
    intro p hp hpd
    have := j4 p hp hpd
    rwa [j2.trans i2] at this

/-- Claim C4: a rejected `load_thumbnail` call is swallowed by the worker's
empty `catch` — the thumbnail map, the error state and the dispatch history
are untouched and the worker returns to its loop head; the pool has no
infinite executions (so the `Promise.all` of the batch always resolves);
and a bump-free maximal execution ends with every worker returned and every
item of the list dispatched, despite any interleaved failures. -/
theorem hydration_worker_failure_nonfatal :
    (∀ (s : HydrationState) (i idx : ℕ),
        workerAt s i = some (.awaiting idx) →
        (hydResume i (.error ()) s).thumbs = s.thumbs ∧
        (hydResume i (.error ()) s).error = s.error ∧
        (hydResume i (.error ()) s).dispatched = s.dispatched ∧
        workerAt (hydResume i (.error ()) s) i = some WorkerPhase.idle) ∧
    WellFounded (fun t s : HydrationState => HydStepQ s t) ∧
    ∀ (rid : ℕ) (paths : List String) (s : HydrationState),
      HydReachQ (hydInit rid rid paths) s → HydStuck s →
      AllDone s ∧ s.cursor = paths.length ∧
        s.dispatched = List.range paths.length := by
  refine ⟨?_, ?_, ?_⟩
  · intro s i idx h
    have hlt : i < s.workers.length := (List.get?_eq_some.mp h).1
    refine ⟨?_, ?_, ?_, ?_⟩
    · unfold hydResume
      rw [h]
      rfl
    · unfold hydResume
      rw [h]
      rfl
    · unfold hydResume
      rw [h]
      rfl
    · unfold hydResume
      rw [h]
      show (s.workers.set i WorkerPhase.idle).get? i = some WorkerPhase.idle
      exact List.get?_set_eq_of_lt _ hlt
  · refine Subrelation.wf ?_ (InvImage.wf hydMeasure wellFounded_lt)
    intro a b hab
    exact hydStepQ_measure_decrease hab
  · intro rid paths s hreach hstuck
    have hall := hydStuck_allDone hstuck
    obtain ⟨r1, r2, r3, r4⟩ := hydReachQ_run_inv hreach
    have hreach' : HydReach (hydInit rid rid paths) s := by
      refine Relation.ReflTransGen.mono ?_ hreach
      intro a b hab
      cases hab with
      | take i h => exact HydStep.take _ i h
      | resume i idx res h => exact HydStep.resume _ i idx res h
    obtain ⟨d1, d2, d3⟩ := hydReach_dispatch_inv hreach' (by simp [hydInit])
      (by simp [hydInit])
    have hip : (hydInit rid rid paths).itemPaths = paths := rfl
    rw [d3, hip] at d2
    have hcur : s.cursor = paths.length := by
      rcases Nat.eq_zero_or_pos paths.length with h0 | hpos
      · omega
      · have hwpos : 0 < s.workers.length := by
          rw [r3]
          exact Nat.lt_min.mpr ⟨by omega, hpos⟩
        obtain ⟨p, hp⟩ := List.exists_mem_of_length_pos hwpos
        have := r4 p hp (hall p hp)
        omega
    exact ⟨hall, hcur, by rw [d1, hcur]⟩

/-- Witness for C4: a failed fetch for the only item leaves the map and the
dispatch history as they were, and the empty-list pool (zero workers) is
immediately stuck with all items (none) dispatched. -/
theorem hydration_worker_failure_nonfatal_witness :
    (hydResume 0 (.error ()) (hydTake 0 (hydInit 1 1 ["a"]))).thumbs =
      (hydTake 0 (hydInit 1 1 ["a"])).thumbs ∧
    AllDone (hydInit 1 1 []) ∧
    (hydInit 1 1 []).dispatched = List.range 0 := by
  constructor
  · exact (hydration_worker_failure_nonfatal.1
      (hydTake 0 (hydInit 1 1 ["a"])) 0 0 rfl).1
  · have hstuck : HydStuck (hydInit 1 1 []) := by
      intro t ht
      cases ht with
      | take i h => exact Option.noConfusion h
      | resume i idx res h => exact Option.noConfusion h
    have h := hydration_worker_failure_nonfatal.2.2 1 [] _
      Relation.ReflTransGen.refl hstuck
    exact ⟨h.1, h.2.2⟩

/-- Appending a fresh key at the back does not change lookups of other
keys. -/
theorem lookup_append_single (m : List (String × String)) (p path url : String)
    (hne : p ≠ path) : (m ++ [(path, url)]).lookup p = m.lookup p := by
  induction m with
  | nil =>
    simp [List.lookup, beq_eq_false_iff_ne.mpr hne]
  | cons a m ih =>
    obtain ⟨k, v⟩ := a
    by_cases hp : p = k
    · subst hp
      simp [List.lookup]
    · simp [List.lookup, beq_eq_false_iff_ne.mpr hp, ih]

/-- The spread-copy rewrite of one key does not change lookups of other
keys. -/
theorem lookup_map_replace (m : List (String × String)) (p path url : String)
    (hne : p ≠ path) :
    (m.map fun entry => if entry.1 = path then (path, url) else entry).lookup p
      = m.lookup p := by
  induction m with
  | nil => rfl
  | cons a m ih =>
    obtain ⟨k, v⟩ := a
    by_cases hk : k = path
    · subst hk
      have hif : (if ((k, v) : String × String).1 = k then (k, url) else (k, v))
          = (k, url) := by simp
      simp only [List.map, hif]
      simp [List.lookup, beq_eq_false_iff_ne.mpr hne, ih]
    · simp only [List.map]
      rw [if_neg hk]
      by_cases hp : p = k
      · subst hp
        simp [List.lookup]
      · simp [List.lookup, beq_eq_false_iff_ne.mpr hp, ih]

/-- The branch of `mergeThumb` when the key is absent. -/
theorem mergeThumb_of_lookup_none (path url : String)
    (m : List (String × String)) (hl : m.lookup path = none) :
    mergeThumb path url m = m ++ [(path, url)] := by
  unfold mergeThumb
  rw [hl]

/-- The branch of `mergeThumb` when the key is present. -/
theorem mergeThumb_of_lookup_some (path url w : String)
    (m : List (String × String)) (hl : m.lookup path = some w) :
    mergeThumb path url m =
      if w ≠ "" then m
      else m.map fun entry => if entry.1 = path then (path, url) else entry := by
  unfold mergeThumb
  rw [hl]

/-- Claim C9, counterexample: the write-once guard of the thumbnail map is
a truthiness test (`if (prev[item.path])`), not a presence test.  In the
bump-free run below over the two-entry item list `["a", "a"]`, after the
first fetch resolves with a data URL stringifying to `""` the map holds the
entry `("a", "")`; the later successful result for the same path then
overwrites that existing entry, so the map is not write-once per path. -/
theorem thumbnail_map_entry_overwritten :
    (hydResume 0 (.ok "") (hydTake 0 (hydInit 1 1 ["a", "a"]))).thumbs.lookup "a"
      = some "" ∧
    (hydResume 0 (.ok "data") (hydTake 0 (hydResume 0 (.ok "")
        (hydTake 0 (hydInit 1 1 ["a", "a"]))))).thumbs = [("a", "data")] ∧
    HydReachQ (hydInit 1 1 ["a", "a"])
      (hydResume 0 (.ok "data") (hydTake 0 (hydResume 0 (.ok "")
        (hydTake 0 (hydInit 1 1 ["a", "a"]))))) := by
  refine ⟨by decide, by decide, ?_⟩
  refine Relation.ReflTransGen.tail (Relation.ReflTransGen.tail
    (Relation.ReflTransGen.tail (Relation.ReflTransGen.tail
      Relation.ReflTransGen.refl
      (HydStepQ.take _ 0 (by decide)))
      (HydStepQ.resume _ 0 0 (.ok "") (by decide)))
    (HydStepQ.take _ 0 (by decide)))
    (HydStepQ.resume _ 0 1 (.ok "data") (by decide))

/-- Claim C9 as amended: within a single hydration run the displayed
thumbnail map is write-once per path for non-empty entries — a successful
result for an item whose path already maps to a non-empty entry leaves the
map unchanged — and every merge leaves entries of other paths untouched.
(An existing empty-string entry may be overwritten, because the source
guard tests truthiness rather than presence.) -/
theorem thumbnail_map_write_once_for_nonempty :
    (∀ (s : HydrationState) (i idx : ℕ) (url v : String),
        workerAt s i = some (.awaiting idx) →
        s.thumbs.lookup (s.itemPaths.getD idx "") = some v → v ≠ "" →
        (hydResume i (.ok url) s).thumbs = s.thumbs) ∧
    ∀ (path url p : String) (m : List (String × String)), p ≠ path →
      (mergeThumb path url m).lookup p = m.lookup p := by
  constructor
  · intro s i idx url v hw hl hv
    unfold hydResume
    rw [hw]
    by_cases hr : s.runId ≠ s.curRunId
    · show (if s.runId ≠ s.curRunId then setWorker s i .done else _).thumbs = _
      rw [if_pos hr]
      rfl
    · show (if s.runId ≠ s.curRunId then setWorker s i .done else _).thumbs = _
      rw [if_neg hr]
      show mergeThumb (s.itemPaths.getD idx "") url s.thumbs = s.thumbs
      rw [mergeThumb_of_lookup_some _ url v s.thumbs hl, if_pos hv]
  · intro path url p m hne
    cases hl : m.lookup path with
    | none =>
      rw [mergeThumb_of_lookup_none path url m hl]
      exact lookup_append_single m p path url hne
    | some w =>
      rw [mergeThumb_of_lookup_some path url w m hl]
      by_cases hw : w ≠ ""
      · rw [if_pos hw]
      · rw [if_neg hw]
        exact lookup_map_replace m p path url hne

/-- Witness for the amended C9: a successful late result for a path whose
entry `"u"` is non-empty leaves the map unchanged, and merging path `a`
leaves the entry of path `b` untouched. -/
theorem thumbnail_map_write_once_for_nonempty_witness :
    (hydResume 0 (.ok "new")
        { runId := 1, curRunId := 1, itemPaths := ["a"], cursor := 1,
          dispatched := [0], thumbs := [("a", "u")], error := "",
          workers := [.awaiting 0] }).thumbs = [("a", "u")] ∧
    (mergeThumb "a" "x" [("b", "w")]).lookup "b" = some "w" := by
  constructor
  · exact thumbnail_map_write_once_for_nonempty.1 _ 0 0 "new" "u" (by decide)
      (by decide) (by decide)
  · rw [thumbnail_map_write_once_for_nonempty.2 "a" "x" "b" [("b", "w")]
      (by decide)]
    rfl

end Thumbnailer
